import Mathlib

/-!
# Verification of the FnM digital-friend bot core

Shallow embedding of the repository's memory manager
(`memory_manager.js`, given as `src/unnamed/part_000`), the directive
parser/applier in the text handler (`src/index.js`), and the prompt
construction (`src/bot_logic.js`).  JavaScript objects are modelled as
Lean structures, JSON values as an inductive type, strings as `List Char`
where character-level scanning matters, and the mutable per-user file as
explicit `Option` state threaded through the functions.
-/

/-- A JSON scalar value, as produced by `JSON.parse` on the flat directive
payloads the bot's directive grammar uses (strings, integers, booleans,
null).  Nested objects/arrays are outside the directive grammar and are
not modelled. -/
inductive Jv where
  | null : Jv
  | bool (b : Bool) : Jv
  | num (n : Int) : Jv
  | str (s : String) : Jv
deriving DecidableEq, Repr

/-- JavaScript truthiness of a JSON value (`v ? … : …`, `v || d`). -/
def jsTruthy : Jv → Bool
  | Jv.null => false
  | Jv.bool b => b
  | Jv.num n => n ≠ 0
  | Jv.str s => s ≠ ""

/-- `o || d` where `o` is a possibly-absent object field (absent reads as
`undefined`, which is falsy). Embeds `remindData.minutes || 1` and
`remindData.text || "…"` in `src/index.js` lines 98–99. -/
def jsOrDefault (o : Option Jv) (d : Jv) : Jv :=
  match o with
  | some v => if jsTruthy v then v else d
  | none => d

/-- One element of a user's `history` array: `{ role, content, timestamp }`
as pushed by `addToHistory`. -/
structure HistoryEntry where
  role : String
  content : String
  timestamp : Int
deriving DecidableEq, Repr

/-- The user memory object of `memory_manager.js` (`loadUserMemory`'s
default structure and everything the code reads or writes on it).
`facts` is a JS object: an insertion-ordered association list with
unique keys. -/
structure UserRecord where
  id : Int
  username : Option String
  language : String
  facts : List (String × Jv)
  history : List HistoryEntry
  last_interaction : Int
deriving DecidableEq, Repr

/-- Default memory structure returned by `loadUserMemory` for a new user
(`memory_manager.js` lines 33–41); `now` is `Date.now()`. -/
def defaultUserMemory (id : Int) (now : Int) : UserRecord :=
  { id := id
    username := none
    language := "ru"
    facts := []
    history := []
    last_interaction := now }

/-- One element of a group's `recent_messages` array:
`{ sender, content, timestamp }` as pushed by `addGroupMessage`. -/
structure GroupMessage where
  sender : String
  content : String
  timestamp : Int
deriving DecidableEq, Repr

/-- The group data object of `memory_manager.js` (`loadGroupData`'s
default structure). -/
structure GroupRecord where
  id : Int
  title : String
  members_count : Int
  recent_messages : List GroupMessage
  added_at : Int
deriving DecidableEq, Repr

/-- Default group structure returned by `loadGroupData` for a new group
(`memory_manager.js` lines 132–139). -/
def defaultGroupData (id : Int) (now : Int) : GroupRecord :=
  { id := id
    title := "Unknown Group"
    members_count := 0
    recent_messages := []
    added_at := now }

/-- `arr.slice(s)` of JavaScript on a single (possibly negative) start
argument: a negative `s` counts from the end, clamped at 0; `slice(-0)`
is `slice(0)`, the whole array. -/
def jsSlice {α : Type} (l : List α) (s : Int) : List α :=
  if s < 0 then l.drop ((l.length : Int) + s).toNat else l.drop s.toNat

/-- The push-then-truncate step shared verbatim by `addToHistory`
(`memory_manager.js` lines 79–87, `memory.history`) and `addGroupMessage`
(lines 185–192, `data.recent_messages`): push the new element, then if
`length > limit` replace the array by `array.slice(-limit)`. -/
def pushCap {α : Type} (l : List α) (x : α) (limit : Int) : List α :=
  let l' := l ++ [x]
  if (l'.length : Int) > limit then jsSlice l' (-limit) else l'

/-- `addToHistory`'s effect on the loaded memory object
(`memory_manager.js` lines 77–89, between the load and the save): push
`{...message, timestamp: Date.now()}` onto `history` and truncate to the
last `limit` entries. -/
def addToHistoryRec (m : UserRecord) (role content : String) (now : Int)
    (limit : Int) : UserRecord :=
  { m with history := pushCap m.history ⟨role, content, now⟩ limit }

/-- `addGroupMessage`'s effect on the loaded group object
(`memory_manager.js` lines 183–193, between the load and the save). -/
def addGroupMessageRec (g : GroupRecord) (sender content : String) (now : Int)
    (limit : Int) : GroupRecord :=
  { g with recent_messages := pushCap g.recent_messages ⟨sender, content, now⟩ limit }

-- Directive parsing (src/index.js lines 76–113)

/-- The `\x7b` character (written via its code point to keep brace pairing
inside the development unambiguous). -/
def lbraceChar : Char := Char.ofNat 123

/-- The `\x7d` character. -/
def rbraceChar : Char := Char.ofNat 125

/-- JavaScript whitespace, as matched by the regex class `\s` and removed
by `String.prototype.trim` (restricted to the ASCII whitespace the bot's
texts use). -/
def jsWsChar (c : Char) : Bool :=
  c = ' ' ∨ c = '\t' ∨ c = '\n' ∨ c = '\r' ∨ c = '\x0b' ∨ c = '\x0c'

/-- `String.prototype.trim`: strip leading and trailing whitespace. -/
def jsTrim (l : List Char) : List Char :=
  ((l.dropWhile jsWsChar).reverse.dropWhile jsWsChar).reverse

/-- `String.prototype.replace(pat, '')` with a plain-string pattern:
remove the first occurrence of `pat`, if any (JavaScript replaces only
the first occurrence for string patterns). -/
def replaceFirst (pat : List Char) : List Char → List Char
  | [] => []
  | c :: rest =>
    if pat.isPrefixOf (c :: rest) then (c :: rest).drop pat.length
    else c :: replaceFirst pat rest

/-- The lazy body scan of the capture `({.*?})` followed by `]`: starting
just after the opening brace, consume characters (`.` matches neither
`\n` nor `\r`) up to the first closing brace that is immediately followed
by `]`; return the consumed body (closing brace included) and the rest
after the `]`. -/
def scanBody : List Char → Option (List Char × List Char)
  | c :: d :: rest =>
    if c = rbraceChar ∧ d = ']' then some ([rbraceChar], rest)
    else if c = '\n' ∨ c = '\r' then none
    else (scanBody (d :: rest)).map fun p => (c :: p.1, p.2)
  | _ => none

/-- Try to match `TAG\s*({.*?})]` (the regexes
`/\[UPDATE:\s*({.*?})\]/` and `/\[REMIND:\s*({.*?})\]/` of
`src/index.js`) at the very start of `s`.  On success returns
`(full match, capture group, rest after the match)`. -/
def matchTagAt (tag : List Char) (s : List Char) : Option (List Char × List Char × List Char) :=
  if tag.isPrefixOf s then
    let rest0 := s.drop tag.length
    let wsPart := rest0.takeWhile jsWsChar
    match rest0.dropWhile jsWsChar with
    | c :: body =>
      if c = lbraceChar then
        match scanBody body with
        | some (mid, rest2) =>
          some (tag ++ wsPart ++ (lbraceChar :: mid) ++ [']'], lbraceChar :: mid, rest2)
        | none => none
      else none
    | [] => none
  else none

/-- Worker for `findMatches`: at each position either emit the match
starting there and continue after it, or advance one character — the
behaviour of repeated `regex.exec` with the `g` flag. -/
def findMatchesGo (tag : List Char) : Nat → List Char → List (List Char × List Char)
  | 0, _ => []
  | _, [] => []
  | fuel + 1, c :: rest =>
    match matchTagAt tag (c :: rest) with
    | some (full, capt, after) => (full, capt) :: findMatchesGo tag fuel after
    | none => findMatchesGo tag fuel rest

/-- All matches of the directive regex for `tag`, left to right,
non-overlapping, each as `(full match, capture group)` — the sequence of
`match` values produced by the `while ((match = regex.exec(rawResponse)))`
loops of `src/index.js`. -/
def findMatches (tag : List Char) (s : List Char) : List (List Char × List Char) :=
  findMatchesGo tag s.length s

-- JSON.parse on directive payloads

/-- JSON token whitespace (`JSON.parse` skips exactly these). -/
def jsonWsChar (c : Char) : Bool :=
  c = ' ' ∨ c = '\t' ∨ c = '\n' ∨ c = '\r'

/-- Skip JSON whitespace. -/
def skipJsonWs (l : List Char) : List Char := l.dropWhile jsonWsChar

/-- Parse the body of a JSON string literal (opening quote already
consumed): returns the decoded contents and the rest after the closing
quote.  Handles the common escapes; raw control characters are
rejected, as `JSON.parse` rejects them. -/
def parseStrBody : List Char → Option (List Char × List Char)
  | [] => none
  | c :: rest =>
    if c = '"' then some ([], rest)
    else if c = '\\' then
      match rest with
      | [] => none
      | e :: rest' =>
        let dec : Option Char :=
          if e = '"' then some '"'
          else if e = '\\' then some '\\'
          else if e = '/' then some '/'
          else if e = 'n' then some '\n'
          else if e = 't' then some '\t'
          else if e = 'r' then some '\r'
          else none
        match dec with
        | some d => (parseStrBody rest').map fun p => (d :: p.1, p.2)
        | none => none
    else if c = '\n' ∨ c = '\r' ∨ c = '\t' then none
    else (parseStrBody rest).map fun p => (c :: p.1, p.2)

/-- Numeric value of a list of decimal digits. -/
def natOfDigits (ds : List Char) : Nat :=
  ds.foldl (fun acc c => 10 * acc + (c.toNat - 48)) 0

/-- Parse a JSON integer literal (optional minus sign, one or more
digits; the directive payloads only ever carry integers). -/
def parseIntLit (l : List Char) : Option (Int × List Char) :=
  match l with
  | '-' :: rest =>
    let ds := rest.takeWhile Char.isDigit
    if ds = [] then none
    else some (-(natOfDigits ds : Int), rest.dropWhile Char.isDigit)
  | _ =>
    let ds := l.takeWhile Char.isDigit
    if ds = [] then none
    else some ((natOfDigits ds : Int), l.dropWhile Char.isDigit)

/-- Parse one scalar JSON value. -/
def parseJVal (l : List Char) : Option (Jv × List Char) :=
  match l with
  | '"' :: rest => (parseStrBody rest).map fun p => (Jv.str (String.mk p.1), p.2)
  | 't' :: 'r' :: 'u' :: 'e' :: rest => some (Jv.bool true, rest)
  | 'f' :: 'a' :: 'l' :: 's' :: 'e' :: rest => some (Jv.bool false, rest)
  | 'n' :: 'u' :: 'l' :: 'l' :: rest => some (Jv.null, rest)
  | _ => (parseIntLit l).map fun p => (Jv.num p.1, p.2)

/-- Parse the members of a JSON object, starting at the first key and
consuming through the closing brace; returns the key/value pairs in
textual order and the rest after the closing brace. -/
def parseMembers : Nat → List Char → Option (List (String × Jv) × List Char)
  | 0, _ => none
  | fuel + 1, l =>
    match skipJsonWs l with
    | '"' :: rest =>
      match parseStrBody rest with
      | none => none
      | some (key, rest1) =>
        match skipJsonWs rest1 with
        | ':' :: rest2 =>
          match parseJVal (skipJsonWs rest2) with
          | none => none
          | some (v, rest3) =>
            match skipJsonWs rest3 with
            | ',' :: rest4 =>
              (parseMembers fuel rest4).map fun p => ((String.mk key, v) :: p.1, p.2)
            | d :: rest4 =>
              if d = rbraceChar then some ([(String.mk key, v)], rest4) else none
            | [] => none
        | _ => none
    | _ => none

/-- JavaScript property assignment `o[k] = v` on an object modelled as an
insertion-ordered association list: an existing key keeps its position
and gets the new value, a new key is appended. -/
def jsObjAssign (o : List (String × Jv)) (k : String) (v : Jv) : List (String × Jv) :=
  if o.any (fun p => p.1 = k) then o.map (fun p => if p.1 = k then (k, v) else p)
  else o ++ [(k, v)]

/-- Build a JavaScript object from parsed key/value pairs (later
duplicates overwrite, as in `JSON.parse`). -/
def jsObjOfPairs (ps : List (String × Jv)) : List (String × Jv) :=
  ps.foldl (fun o p => jsObjAssign o p.1 p.2) []

/-- `JSON.parse` on a directive payload: a single flat object of scalar
values, with nothing but whitespace after the closing brace.  (Nested
objects/arrays and fractional numbers are outside the directive grammar
of the bot and are not modelled.) -/
def parseFlatObj (l : List Char) : Option (List (String × Jv)) :=
  match skipJsonWs l with
  | c :: rest =>
    if c = lbraceChar then
      match skipJsonWs rest with
      | d :: rest1 =>
        if d = rbraceChar then
          if skipJsonWs rest1 = [] then some [] else none
        else
          match parseMembers (l.length + 1) (d :: rest1) with
          | some (ps, rest2) =>
            if skipJsonWs rest2 = [] then some (jsObjOfPairs ps) else none
          | none => none
      | [] => none
    else none
  | [] => none

/-- Property read `o[k]` on a JavaScript object (absent gives
`undefined`, modelled as `none`). -/
def jsLookup (k : String) (o : List (String × Jv)) : Option Jv :=
  (o.find? (fun p => p.1 = k)).map Prod.snd

/-- Key-presence test on a JavaScript object. -/
def jsObjHas (k : String) (o : List (String × Jv)) : Bool :=
  o.any (fun p => p.1 = k)

/-- The object spread `{ ...facts, ...updates }` of `src/index.js` line
84: copy `facts`, then assign each binding of `updates` in order. -/
def jsMergeFacts (facts updates : List (String × Jv)) : List (String × Jv) :=
  updates.foldl (fun o p => jsObjAssign o p.1 p.2) facts

/-- The literal characters of `[UPDATE:`, the fixed head of the UPDATE
directive regex. -/
def updateTag : List Char := '[' :: 'U' :: 'P' :: 'D' :: 'A' :: 'T' :: 'E' :: ':' :: []

/-- The literal characters of `[REMIND:`, the fixed head of the REMIND
directive regex. -/
def remindTag : List Char := '[' :: 'R' :: 'E' :: 'M' :: 'I' :: 'N' :: 'D' :: ':' :: []

/-- Result of running the directive loops of `src/index.js` lines 76–113:
the updated `memory.facts`, the final `cleanResponse`, and the scheduled
reminders, each recorded as the pair `(minutes, text)` of JavaScript
values passed to the `setTimeout` callback (the actual delay is
`minutes * 60 * 1000` milliseconds). -/
structure DirResult where
  facts : List (String × Jv)
  clean : List Char
  reminders : List (Jv × Jv)
deriving DecidableEq, Repr

/-- The UPDATE loop (`src/index.js` lines 80–91): for each match, try
`JSON.parse` on the capture; on success merge into `facts` and remove
the matched text from `cleanResponse` (then trim); on failure the `catch`
only logs — note the removal sits after the parse inside the `try`, so a
failing payload leaves `cleanResponse` untouched. -/
def applyUpdateMatches :
    List (List Char × List Char) → List (String × Jv) → List Char →
      List (String × Jv) × List Char
  | [], facts, clean => (facts, clean)
  | (full, capt) :: rest, facts, clean =>
    match parseFlatObj capt with
    | some updates =>
      applyUpdateMatches rest (jsMergeFacts facts updates)
        (jsTrim (replaceFirst full clean))
    | none => applyUpdateMatches rest facts clean

/-- The REMIND loop (`src/index.js` lines 95–113): for each match, try
`JSON.parse` on the capture; on success compute
`minutes = remindData.minutes || 1` and `text = remindData.text ||
"Напоминание!"`, remove the matched text from `cleanResponse` (then
trim) and schedule the reminder; on failure only log. -/
def applyRemindMatches :
    List (List Char × List Char) → List Char → List Char × List (Jv × Jv)
  | [], clean => (clean, [])
  | (full, capt) :: rest, clean =>
    match parseFlatObj capt with
    | some rd =>
      let minutes := jsOrDefault (jsLookup "minutes" rd) (Jv.num 1)
      let text := jsOrDefault (jsLookup "text" rd) (Jv.str "Напоминание!")
      let clean' := jsTrim (replaceFirst full clean)
      let res := applyRemindMatches rest clean'
      (res.1, (minutes, text) :: res.2)
    | none => applyRemindMatches rest clean

/-- The whole directive-processing of a generated reply (`src/index.js`
lines 76–113): scan `rawResponse` for all UPDATE matches and process
them, then scan `rawResponse` for all REMIND matches and process those,
threading `cleanResponse` (which starts as the raw text). -/
def processResponse (raw : List Char) (facts : List (String × Jv)) : DirResult :=
  let um := findMatches updateTag raw
  let fc := applyUpdateMatches um facts raw
  let rm := findMatches remindTag raw
  let cr := applyRemindMatches rm fc.2
  ⟨fc.1, cr.1, cr.2⟩

-- Name index (memory_manager.js findUserByUsername, part_000 lines 97–114)

/-- `username.replace('@', '').toLowerCase()`: drop the first `@` (if
any) and case-fold (`src/unnamed/part_000` line 98). -/
def cleanUsername (username : String) : String :=
  String.mk ((replaceFirst ['@'] username.toList).map Char.toLower)

/-- The per-slot test of the `findUserByUsername` scan: an unparseable
slot is skipped (its `catch` only logs); a parsed record matches when its
`username` is truthy and lowercases to the cleaned query. -/
def slotMatches (clean : String) : Option UserRecord → Option UserRecord
  | some r =>
    match r.username with
    | some u =>
      if u ≠ "" ∧ String.mk (u.toList.map Char.toLower) = clean then some r else none
    | none => none
  | none => none

/-- `findUserByUsername` (`src/unnamed/part_000` lines 97–114) over the
stored user slots in directory-enumeration order, each slot given as its
parse result (`none` = invalid JSON, skipped): return the first matching
record, else `null`. -/
def findUserByUsername (store : List (Option UserRecord)) (username : String) :
    Option UserRecord :=
  store.findSome? (slotMatches (cleanUsername username))

-- Record store with corruption recovery (part_000 lines 20–42 and 121–140)

/-- The byte content of a persisted user slot, abstracted to whether it
parses: a good serialized record, or corrupt bytes. -/
inductive SlotContent where
  | good (r : UserRecord) : SlotContent
  | corrupt (bytes : String) : SlotContent
deriving DecidableEq, Repr

/-- The byte content of a persisted group slot. -/
inductive GroupSlotContent where
  | good (g : GroupRecord) : GroupSlotContent
  | corrupt (bytes : String) : GroupSlotContent
deriving DecidableEq, Repr

/-- `loadUserMemory` (`src/unnamed/part_000` lines 20–42) over explicit
filesystem state: `slot` is the user's `<id>.json` and `bak` the
`<id>.json.bak` beside it.  A good slot is returned as is; a corrupt slot
is renamed to the backup (`fs.renameSync`, which replaces any existing
backup) and a default record is returned; a missing slot just yields the
default.  Returns the record and the post-call `(slot, bak)` pair. -/
def loadUserMemoryFS (slot bak : Option SlotContent) (userId now : Int) :
    UserRecord × Option SlotContent × Option SlotContent :=
  match slot with
  | some (SlotContent.good r) => (r, slot, bak)
  | some (SlotContent.corrupt b) =>
    (defaultUserMemory userId now, none, some (SlotContent.corrupt b))
  | none => (defaultUserMemory userId now, none, bak)

/-- `loadGroupData` (`src/unnamed/part_000` lines 121–140) over explicit
filesystem state.  Its `catch` only logs: a corrupt slot is left exactly
where it is (no rename, no backup) and a default record is returned. -/
def loadGroupDataFS (slot bak : Option GroupSlotContent) (chatId now : Int) :
    GroupRecord × Option GroupSlotContent × Option GroupSlotContent :=
  match slot with
  | some (GroupSlotContent.good g) => (g, slot, bak)
  | some (GroupSlotContent.corrupt _) => (defaultGroupData chatId now, slot, bak)
  | none => (defaultGroupData chatId now, slot, bak)

-- The text handler (src/index.js lines 25–126)

/-- `loadUserMemory` as used inside the handler, for slots that are
present-and-parseable or absent (the corruption path is modelled by
`loadUserMemoryFS`): return the parsed record or a fresh default. -/
def loadUserMemorySt (file : Option UserRecord) (userId now : Int) : UserRecord :=
  file.getD (defaultUserMemory userId now)

/-- `addToHistory` (`src/unnamed/part_000` lines 77–90) as a whole:
load the record from its slot, push the entry, truncate to the last 15,
and save the result back to the slot. -/
def addToHistorySt (file : Option UserRecord) (userId : Int)
    (role content : String) (now : Int) : Option UserRecord :=
  some (addToHistoryRec (loadUserMemorySt file userId now) role content now 15)

/-- Everything `bot.on('text')` returns and persists. -/
structure HandlerResult where
  file : Option UserRecord
  reply : List Char
  reminders : List (Jv × Jv)
deriving DecidableEq, Repr

/-- The `bot.on('text')` handler of `src/index.js` (lines 25–126) on a
message that reaches the main path (group gating, the who-is lookup and
the generation call are transport/collaborator concerns; `raw` is the
text the generation collaborator returned).  `file` is the persisted
user slot; `t0, t1, t2` are the successive `Date.now()` readings.  The
handler: loads the memory, syncs the username (with an immediate save),
applies the directive loops to `raw` (mutating the in-memory `facts`),
runs `addToHistory` twice (each one loads the slot, appends, saves), and
finally saves the in-memory `memory` object over the slot. -/
def handleText (file : Option UserRecord) (userId : Int)
    (ctxUsername : Option String) (userText raw : String)
    (t0 t1 t2 : Int) : HandlerResult :=
  let memory0 := loadUserMemorySt file userId t0
  let sync :=
    match ctxUsername with
    | some u =>
      if memory0.username ≠ some u then
        let m := { memory0 with username := some u }
        (m, some m)
      else (memory0, file)
    | none => (memory0, file)
  let memory1 := sync.1
  let file1 := sync.2
  let dr := processResponse raw.toList memory1.facts
  let memory2 := { memory1 with facts := dr.facts }
  let file2 := addToHistorySt file1 userId "user" userText t1
  let _file3 := addToHistorySt file2 userId "assistant" (String.mk dr.clean) t2
  let file4 := some memory2
  { file := file4, reply := dr.clean, reminders := dr.reminders }

-- Prompt construction (src/bot_logic.js lines 15–70)

/-- JavaScript template interpolation of a JSON value
(`` `- ${key}: ${value}` ``). -/
def jvToDisplay : Jv → String
  | Jv.null => "null"
  | Jv.bool true => "true"
  | Jv.bool false => "false"
  | Jv.num n => toString n
  | Jv.str s => s

/-- JavaScript template interpolation of a possibly-`null` username. -/
def usernameDisplay : Option String → String
  | some s => s
  | none => "null"

/-- `Object.entries(facts).map(([k, v]) => `- ${k}: ${v}`).join('\n')`
(`src/bot_logic.js` lines 16–18 and 24–26). -/
def factsLines (facts : List (String × Jv)) : String :=
  String.intercalate "\n" (facts.map fun p => "- " ++ p.1 ++ ": " ++ jvToDisplay p.2)

/-- `generateSystemPrompt` (`src/bot_logic.js` lines 15–51): the system
prompt built from the acting user's facts and, for a cross-user query,
the target record's username and facts — and nothing else of the target. -/
def generateSystemPrompt (memory : UserRecord) (targetMemory : Option UserRecord) :
    String :=
  let facts0 := factsLines memory.facts
  let facts := if facts0 = "" then "Ничего пока не известно." else facts0
  let targetInfo :=
    match targetMemory with
    | some t =>
      let tf0 := factsLines t.facts
      let tf := if tf0 = "" then "Фактов нет." else tf0
      "\nТы отвечаешь на вопрос о пользователе @" ++ usernameDisplay t.username
        ++ ".\nВот что ты знаешь о нем:\n" ++ tf ++ "\n"
    | none => ""
  "Ты — Digital Friend, близкий друг пользователя.\nТвоя задача: поддерживать диалог, быть эмпатичным, веселым и, если уместно, немного саркастичным.\nТвой язык: Русский.\n\nО собеседнике ты знаешь следующее:\n"
    ++ facts ++ "\n" ++ targetInfo
    ++ "\n\nПравила:\n1. Не будь роботом. Отвечай коротко, живо.\n2. Используй память. Если пользователь что-то рассказывал, упоминай это.\n3. [ВАЖНО] Если ты узнал новый факт (имя, хобби, планы), добавь в конец: [UPDATE: \x7b\"ключ\": \"значение\"\x7d].\n4. [ВАЖНО] Если пользователь просит напомнить о чем-то, добавь в конец: [REMIND: \x7b\"minutes\": X, \"text\": \"напоминание\"\x7d].\n   Пример: \"Окей, напомню.\" [REMIND: \x7b\"minutes\": 10, \"text\": \"Выключи чайник!\"\x7d]\n5. Не используй теги, если нет повода.\n"

/-- One element of the `messages` array sent to the generation API. -/
structure ChatMsg where
  role : String
  content : String
deriving DecidableEq, Repr

/-- The `messages` array of `generateResponse` (`src/bot_logic.js` lines
66–70): the system prompt, the acting user's history, the new user
message.  The target record contributes only through the system prompt. -/
def generateMessages (userMessage : String) (memory : UserRecord)
    (targetMemory : Option UserRecord) : List ChatMsg :=
  ChatMsg.mk "system" (generateSystemPrompt memory targetMemory)
    :: memory.history.map (fun m => ChatMsg.mk m.role m.content)
    ++ [ChatMsg.mk "user" userMessage]


-- Core rolling-buffer lemmas

/-- For a positive capacity, one push-and-truncate step keeps exactly the
last `limit` elements of the extended sequence. -/
theorem pushCap_eq_rtake {α : Type} (l : List α) (x : α) (limit : Int)
    (hl : 0 < limit) : pushCap l x limit = (l ++ [x]).rtake limit.toNat := by
  unfold pushCap jsSlice
  set l' := l ++ [x] with hl'
  by_cases h : (l'.length : Int) > limit
  · rw [if_pos h, if_pos (by omega), List.rtake]
    congr 1
    omega
  · rw [if_neg h, List.rtake]
    have hle : l'.length ≤ limit.toNat := by omega
    rw [Nat.sub_eq_zero_of_le hle, List.drop_zero]

/-- Taking `n` from `d ++ c.take n` equals taking `n` from `d ++ c`. -/
theorem take_append_take_eq {α : Type} (n : Nat) (d c : List α) :
    (d ++ c.take n).take n = (d ++ c).take n := by
  rw [List.take_append_eq_append_take, List.take_append_eq_append_take,
    List.take_take, Nat.min_eq_left (Nat.sub_le n d.length)]

/-- Truncating the left operand of an append to its last `n` elements does
not change the last `n` elements of the whole append. -/
theorem rtake_append_rtake {α : Type} (n : Nat) (l l₂ : List α) :
    (l.rtake n ++ l₂).rtake n = (l ++ l₂).rtake n := by
  rw [List.rtake_eq_reverse_take_reverse (l.rtake n ++ l₂) n,
    List.rtake_eq_reverse_take_reverse (l ++ l₂) n,
    List.reverse_append, List.reverse_append,
    List.rtake_eq_reverse_take_reverse l n, List.reverse_reverse,
    take_append_take_eq]

/-- The last `n` elements are at most `n` elements. -/
theorem length_rtake_le {α : Type} (n : Nat) (l : List α) :
    (l.rtake n).length ≤ n := by
  rw [List.rtake, List.length_drop]
  omega

/-- Folding push-and-truncate steps from a buffer already truncated to the
last `cap` elements retains exactly the last `cap` of everything seen. -/
theorem foldl_pushCap_eq {α : Type} (cap : Int) (hcap : 0 < cap)
    (ms : List α) : ∀ acc : List α,
    List.foldl (fun l x => pushCap l x cap) (acc.rtake cap.toNat) ms
      = (acc ++ ms).rtake cap.toNat := by
  induction ms with
  | nil => intro acc; simp
  | cons x ms ih =>
    intro acc
    rw [List.foldl_cons, pushCap_eq_rtake _ _ _ hcap,
      rtake_append_rtake, ih (acc ++ [x])]
    simp

/-- Folding push-and-truncate from the empty buffer retains exactly the
last `cap` appended items, in order. -/
theorem foldl_pushCap_nil {α : Type} (cap : Int) (hcap : 0 < cap)
    (ms : List α) :
    List.foldl (fun l x => pushCap l x cap) [] ms = ms.rtake cap.toNat := by
  have h := foldl_pushCap_eq cap hcap ms []
  simpa using h

/-- Folding `addToHistory` mutations over a user record only rewrites the
`history` field, by iterated `pushCap`. -/
theorem foldl_addToHistoryRec_history (limit : Int)
    (ms : List (String × String × Int)) : ∀ m : UserRecord,
    (List.foldl (fun m e => addToHistoryRec m e.1 e.2.1 e.2.2 limit) m ms).history
      = List.foldl (fun l x => pushCap l x limit)
          m.history (ms.map fun e => HistoryEntry.mk e.1 e.2.1 e.2.2) := by
  induction ms with
  | nil => intro m; simp
  | cons e ms ih =>
    intro m
    rw [List.foldl_cons, List.map_cons, List.foldl_cons, ih]
    rfl

/-- Folding `addGroupMessage` mutations over a group record only rewrites
the `recent_messages` field, by iterated `pushCap`. -/
theorem foldl_addGroupMessageRec_messages (limit : Int)
    (gs : List (String × String × Int)) : ∀ g : GroupRecord,
    (List.foldl (fun g e => addGroupMessageRec g e.1 e.2.1 e.2.2 limit) g gs).recent_messages
      = List.foldl (fun l x => pushCap l x limit)
          g.recent_messages (gs.map fun e => GroupMessage.mk e.1 e.2.1 e.2.2) := by
  induction gs with
  | nil => intro g; simp
  | cons e gs ih =>
    intro g
    rw [List.foldl_cons, List.map_cons, List.foldl_cons, ih]
    rfl

/-- C5: for every sequence of appends at the code's capacities (15 for
user history in `addToHistory`, 50 for group messages in
`addGroupMessage`), the buffer length stays within the capacity and the
retained items are exactly the most recent capacity items appended, in
chronological order.  Because this holds for every sequence, it holds
after every individual append. -/
theorem c5_rolling_buffer_capacity
    (ms gs : List (String × String × Int)) :
    ((List.foldl (fun m e => addToHistoryRec m e.1 e.2.1 e.2.2 15)
        (defaultUserMemory 0 0) ms).history.length ≤ 15
      ∧ (List.foldl (fun m e => addToHistoryRec m e.1 e.2.1 e.2.2 15)
          (defaultUserMemory 0 0) ms).history
        = (ms.map fun e => HistoryEntry.mk e.1 e.2.1 e.2.2).rtake 15)
    ∧ ((List.foldl (fun g e => addGroupMessageRec g e.1 e.2.1 e.2.2 50)
        (defaultGroupData 0 0) gs).recent_messages.length ≤ 50
      ∧ (List.foldl (fun g e => addGroupMessageRec g e.1 e.2.1 e.2.2 50)
          (defaultGroupData 0 0) gs).recent_messages
        = (gs.map fun e => GroupMessage.mk e.1 e.2.1 e.2.2).rtake 50) := by
  have hu := foldl_addToHistoryRec_history 15 ms (defaultUserMemory 0 0)
  have hg := foldl_addGroupMessageRec_messages 50 gs (defaultGroupData 0 0)
  have hu' : (defaultUserMemory 0 0).history = [] := rfl
  have hg' : (defaultGroupData 0 0).recent_messages = [] := rfl
  rw [hu', ] at hu
  rw [hg', ] at hg
  rw [hu, foldl_pushCap_nil 15 (by omega), hg, foldl_pushCap_nil 50 (by omega)]
  refine ⟨⟨?_, rfl⟩, ⟨?_, rfl⟩⟩
  · exact le_trans (length_rtake_le _ _) (by omega)
  · exact le_trans (length_rtake_le _ _) (by omega)

/-- C9 counterexample: the claim says appending with capacity ≤ 0 keeps
nothing, but at capacity 0 the code's guard `length > 0` fires and
`slice(-0)` = `slice(0)` is the whole array, so the pushed item is
retained. -/
theorem c9_counterexample :
    ¬ (addToHistoryRec (defaultUserMemory 0 0) "user" "hi" 0 0).history = [] := by
  decide

/-- C9 amended: appending with capacity ≤ 0 never raises (the function is
total), but it does not keep nothing: the item is pushed and the buffer
is cut to `slice(-limit)`, which keeps everything when the capacity is 0
and drops only the first `k` elements when the capacity is `-k`. -/
theorem c9_amended_nonpositive_capacity (m : UserRecord) (g : GroupRecord)
    (role content sender gcontent : String) (now gnow cap : Int)
    (hcap : cap ≤ 0) :
    (addToHistoryRec m role content now cap).history
      = (m.history ++ [HistoryEntry.mk role content now]).drop (-cap).toNat
    ∧ (addGroupMessageRec g sender gcontent gnow cap).recent_messages
      = (g.recent_messages ++ [GroupMessage.mk sender gcontent gnow]).drop (-cap).toNat := by
  constructor
  · show pushCap m.history _ cap = _
    unfold pushCap jsSlice
    rw [if_pos (by simp; omega), if_neg (by omega)]
  · show pushCap g.recent_messages _ cap = _
    unfold pushCap jsSlice
    rw [if_pos (by simp; omega), if_neg (by omega)]

/-- Witness for the amended C9 at capacity `-2`. -/
theorem c9_amended_nonpositive_capacity_witness :
    (addToHistoryRec (defaultUserMemory 0 0) "user" "hi" 1 (-2)).history
      = ((defaultUserMemory 0 0).history ++ [HistoryEntry.mk "user" "hi" 1]).drop (-(-2 : Int)).toNat
    ∧ (addGroupMessageRec (defaultGroupData 0 0) "s" "c" 1 (-2)).recent_messages
      = ((defaultGroupData 0 0).recent_messages ++ [GroupMessage.mk "s" "c" 1]).drop (-(-2 : Int)).toNat :=
  c9_amended_nonpositive_capacity (defaultUserMemory 0 0) (defaultGroupData 0 0)
    "user" "hi" "s" "c" 1 1 (-2) (by omega)

/-- C2 counterexample: on the spec's example text the code's cleaned
output is not the claimed `"Got it.  See you soon."` (two spaces): each
tag removal deletes only the matched bracket text and `trim` only strips
the ends, so the three separator spaces all survive. -/
theorem c2_counterexample :
    ¬ (processResponse "Got it. [UPDATE: \x7b\"mood\":\"happy\"\x7d] [REMIND: \x7b\"minutes\": 5, \"text\": \"Stretch!\"\x7d] See you soon.".toList []).clean
        = "Got it.  See you soon.".toList := by
  decide

/-- C2 amended: on the example text the cleaned output is
`"Got it.   See you soon."` (three interior spaces), the facts map gains
`mood = "happy"`, and exactly one reminder is scheduled with minutes
value 5 and payload text `"Stretch!"`. -/
theorem c2_amended_directive_example :
    processResponse "Got it. [UPDATE: \x7b\"mood\":\"happy\"\x7d] [REMIND: \x7b\"minutes\": 5, \"text\": \"Stretch!\"\x7d] See you soon.".toList []
      = ⟨[("mood", Jv.str "happy")],
         "Got it.   See you soon.".toList,
         [(Jv.num 5, Jv.str "Stretch!")]⟩ := by
  decide

/-- C3 counterexample: on a malformed payload the matched tag is NOT
removed from the cleaned output — the `cleanResponse.replace` sits after
`JSON.parse` inside the `try`, so the parse failure skips it.  The
cleaned output is the raw text unchanged and still contains the full
directive text. -/
theorem c3_counterexample :
    (processResponse "Hi [UPDATE: \x7bbad json\x7d] there.".toList []).clean
        = "Hi [UPDATE: \x7bbad json\x7d] there.".toList
    ∧ "[UPDATE: \x7bbad json\x7d]".toList
        <:+: (processResponse "Hi [UPDATE: \x7bbad json\x7d] there.".toList []).clean
    ∧ (processResponse "Hi [UPDATE: \x7bbad json\x7d] there.".toList []).facts = [] := by
  decide

/-- C3 amended: a directive whose payload fails to parse is a complete
no-op — no fact is added, the tag is left in the cleaned output (not
removed, contrary to the original claim), no exception escapes (the
embedded handler is total), and the remaining directives are processed
exactly as if the malformed one were absent. -/
theorem c3_amended_malformed_directive_noop (full capt : List Char)
    (rest : List (List Char × List Char)) (facts : List (String × Jv))
    (clean : List Char) (h : parseFlatObj capt = none) :
    applyUpdateMatches ((full, capt) :: rest) facts clean
        = applyUpdateMatches rest facts clean
    ∧ applyRemindMatches ((full, capt) :: rest) clean
        = applyRemindMatches rest clean := by
  constructor
  · show (match parseFlatObj capt with
      | some updates => applyUpdateMatches rest (jsMergeFacts facts updates)
          (jsTrim (replaceFirst full clean))
      | none => applyUpdateMatches rest facts clean) = _
    rw [h]
  · show (match parseFlatObj capt with
      | some rd =>
        let minutes := jsOrDefault (jsLookup "minutes" rd) (Jv.num 1)
        let text := jsOrDefault (jsLookup "text" rd) (Jv.str "Напоминание!")
        let clean' := jsTrim (replaceFirst full clean)
        let res := applyRemindMatches rest clean'
        (res.1, (minutes, text) :: res.2)
      | none => applyRemindMatches rest clean) = _
    rw [h]

/-- Witness for the amended C3 at the concrete malformed directive. -/
theorem c3_amended_malformed_directive_noop_witness :
    applyUpdateMatches [("[UPDATE: \x7bbad json\x7d]".toList, "\x7bbad json\x7d".toList)]
        [] "Hi".toList
      = applyUpdateMatches [] [] "Hi".toList
    ∧ applyRemindMatches [("[UPDATE: \x7bbad json\x7d]".toList, "\x7bbad json\x7d".toList)]
        "Hi".toList
      = applyRemindMatches [] "Hi".toList :=
  c3_amended_malformed_directive_noop "[UPDATE: \x7bbad json\x7d]".toList
    "\x7bbad json\x7d".toList [] [] "Hi".toList (by decide)

/-- C7 counterexample: the claim says a minutes field that is not a valid
number falls back to 1, but `remindData.minutes || 1` only tests JS
truthiness: the truthy non-numeric string `"abc"` is scheduled as is
(yielding a `NaN`-millisecond delay in JS), not replaced by 1. -/
theorem c7_counterexample :
    (processResponse "Ok [REMIND: \x7b\"minutes\": \"abc\"\x7d]".toList []).reminders
        = [(Jv.str "abc", Jv.str "Напоминание!")]
    ∧ Jv.str "abc" ≠ Jv.num 1 := by
  decide

/-- C7 amended: for a REMIND payload that parses, the scheduled reminder
uses `minutes = 1` exactly when the `minutes` field is absent or falsy
(`null`, `false`, `0` or `""`), and uses any truthy field value — numeric
or not — as is; the text falls back to the fixed placeholder exactly when
the `text` field is absent or falsy. -/
theorem c7_amended_remind_defaults (full capt : List Char)
    (rest : List (List Char × List Char)) (clean : List Char)
    (rd : List (String × Jv)) (mv tv : Jv)
    (h : parseFlatObj capt = some rd) :
    (applyRemindMatches ((full, capt) :: rest) clean).2.head?
        = some (jsOrDefault (jsLookup "minutes" rd) (Jv.num 1),
                jsOrDefault (jsLookup "text" rd) (Jv.str "Напоминание!"))
    ∧ (jsLookup "minutes" rd = none →
        jsOrDefault (jsLookup "minutes" rd) (Jv.num 1) = Jv.num 1)
    ∧ (jsLookup "minutes" rd = some mv → jsTruthy mv = false →
        jsOrDefault (jsLookup "minutes" rd) (Jv.num 1) = Jv.num 1)
    ∧ (jsLookup "minutes" rd = some mv → jsTruthy mv = true →
        jsOrDefault (jsLookup "minutes" rd) (Jv.num 1) = mv)
    ∧ (jsLookup "text" rd = none →
        jsOrDefault (jsLookup "text" rd) (Jv.str "Напоминание!")
          = Jv.str "Напоминание!")
    ∧ (jsLookup "text" rd = some tv → jsTruthy tv = false →
        jsOrDefault (jsLookup "text" rd) (Jv.str "Напоминание!")
          = Jv.str "Напоминание!") := by
  refine ⟨?_, ?_, ?_, ?_, ?_, ?_⟩
  · show (match parseFlatObj capt with
      | some rd =>
        let minutes := jsOrDefault (jsLookup "minutes" rd) (Jv.num 1)
        let text := jsOrDefault (jsLookup "text" rd) (Jv.str "Напоминание!")
        let clean' := jsTrim (replaceFirst full clean)
        let res := applyRemindMatches rest clean'
        (res.1, (minutes, text) :: res.2)
      | none => applyRemindMatches rest clean).2.head? = _
    rw [h]
    rfl
  · intro hm; rw [hm]; rfl
  · intro hm hf; rw [hm]; simp [jsOrDefault, hf]
  · intro hm ht; rw [hm]; simp [jsOrDefault, ht]
  · intro hm; rw [hm]; rfl
  · intro hm hf; rw [hm]; simp [jsOrDefault, hf]

/-- Witness for the amended C7 with a truthy non-numeric minutes field. -/
theorem c7_amended_remind_defaults_witness :
    (applyRemindMatches
        [("[REMIND: \x7b\"minutes\": \"abc\"\x7d]".toList,
          "\x7b\"minutes\": \"abc\"\x7d".toList)] "Ok".toList).2.head?
        = some (jsOrDefault (jsLookup "minutes" [("minutes", Jv.str "abc")]) (Jv.num 1),
                jsOrDefault (jsLookup "text" [("minutes", Jv.str "abc")])
                  (Jv.str "Напоминание!"))
    ∧ (jsLookup "minutes" [("minutes", Jv.str "abc")] = none →
        jsOrDefault (jsLookup "minutes" [("minutes", Jv.str "abc")]) (Jv.num 1)
          = Jv.num 1)
    ∧ (jsLookup "minutes" [("minutes", Jv.str "abc")] = some (Jv.str "abc") →
        jsTruthy (Jv.str "abc") = false →
        jsOrDefault (jsLookup "minutes" [("minutes", Jv.str "abc")]) (Jv.num 1)
          = Jv.num 1)
    ∧ (jsLookup "minutes" [("minutes", Jv.str "abc")] = some (Jv.str "abc") →
        jsTruthy (Jv.str "abc") = true →
        jsOrDefault (jsLookup "minutes" [("minutes", Jv.str "abc")]) (Jv.num 1)
          = Jv.str "abc")
    ∧ (jsLookup "text" [("minutes", Jv.str "abc")] = none →
        jsOrDefault (jsLookup "text" [("minutes", Jv.str "abc")])
          (Jv.str "Напоминание!") = Jv.str "Напоминание!")
    ∧ (jsLookup "text" [("minutes", Jv.str "abc")] = some Jv.null →
        jsTruthy Jv.null = false →
        jsOrDefault (jsLookup "text" [("minutes", Jv.str "abc")])
          (Jv.str "Напоминание!") = Jv.str "Напоминание!") :=
  c7_amended_remind_defaults "[REMIND: \x7b\"minutes\": \"abc\"\x7d]".toList
    "\x7b\"minutes\": \"abc\"\x7d".toList [] "Ok".toList
    [("minutes", Jv.str "abc")] (Jv.str "abc") Jv.null (by decide)

/-- C1, evaluated at a failing input (fresh user, message `"hi"`, reply
containing one UPDATE directive): after the handler completes, the
persisted record holds the merged fact but its history is empty — the
final `saveUserMemory(userId, memory)` writes the handler's stale
in-memory object over the slot that `addToHistory` had just saved, so
the two history entries of the exchange are lost.  The second conjunct
shows the slot state just before that final save did contain the two
entries. -/
theorem c1_code_bug_history_clobbered :
    (handleText none 7 none "hi" "Ok! [UPDATE: \x7b\"mood\":\"happy\"\x7d]" 0 1 2).file
        = some { id := 7, username := none, language := "ru",
                 facts := [("mood", Jv.str "happy")], history := [],
                 last_interaction := 0 }
    ∧ (addToHistorySt (addToHistorySt none 7 "user" "hi" 1) 7 "assistant"
          (String.mk (processResponse "Ok! [UPDATE: \x7b\"mood\":\"happy\"\x7d]".toList []).clean) 2).map
        (fun r => r.history.map (fun e => (e.role, e.content)))
      = some [("user", "hi"), ("assistant", "Ok!")] := by
  decide

/-- C4 counterexample: for the group record kind, loading a corrupt slot
returns the default but leaves the corrupt slot exactly in place and
creates no backup — so the original corrupt content is still what a
future load sees, contrary to the claim. -/
theorem c4_counterexample_group_no_backup :
    loadGroupDataFS (some (GroupSlotContent.corrupt "junk")) none 5 0
      = (defaultGroupData 5 0, some (GroupSlotContent.corrupt "junk"), none) := by
  decide

/-- C4 amended: for user records the claim holds — a corrupt slot yields
the default record, the original bytes are preserved under the backup
name, and a future load of the same id returns a fresh default (the
corrupt content is gone from the slot).  For group records the load
yields the default but leaves the corrupt slot in place with no backup,
so future loads keep seeing the original corrupt content. -/
theorem c4_amended_corrupt_slot_recovery (b gb : String)
    (bak : Option SlotContent) (gbak : Option GroupSlotContent)
    (uid gid now now2 : Int) :
    loadUserMemoryFS (some (SlotContent.corrupt b)) bak uid now
        = (defaultUserMemory uid now, none, some (SlotContent.corrupt b))
    ∧ loadUserMemoryFS (loadUserMemoryFS (some (SlotContent.corrupt b)) bak uid now).2.1
          (loadUserMemoryFS (some (SlotContent.corrupt b)) bak uid now).2.2 uid now2
        = (defaultUserMemory uid now2, none, some (SlotContent.corrupt b))
    ∧ loadGroupDataFS (some (GroupSlotContent.corrupt gb)) gbak gid now
        = (defaultGroupData gid now, some (GroupSlotContent.corrupt gb), gbak) :=
  ⟨rfl, rfl, rfl⟩

-- Object-merge lemmas for the UPDATE semantics

/-- Assignment rewrites the value at an existing key in place: lookups at
other keys are unaffected by the in-place branch. -/
theorem jsLookup_map_ne (o : List (String × Jv)) (k k' : String) (v : Jv)
    (h : k' ≠ k) :
    jsLookup k' (o.map fun p => if p.1 = k then (k, v) else p) = jsLookup k' o := by
  induction o with
  | nil => rfl
  | cons p rest ih =>
    by_cases hp : p.1 = k
    · have h1 : ¬ ((k : String), v).1 = k' := fun hc => h (hc.symm)
      have h2 : ¬ p.1 = k' := by rw [hp]; exact fun hc => h (hc.symm)
      simp only [List.map_cons, jsLookup, List.find?_cons, if_pos hp] at *
      rw [decide_eq_false h1, decide_eq_false h2]
      exact ih
    · simp only [List.map_cons, jsLookup, List.find?_cons, if_neg hp] at *
      by_cases hq : p.1 = k'
      · rw [decide_eq_true hq]
      · rw [decide_eq_false hq]
        exact ih

/-- If the key is present, the in-place overwrite makes its lookup yield
the new value. -/
theorem jsLookup_map_self (o : List (String × Jv)) (k : String) (v : Jv)
    (h : o.any (fun p => p.1 = k) = true) :
    jsLookup k (o.map fun p => if p.1 = k then (k, v) else p) = some v := by
  induction o with
  | nil => simp at h
  | cons p rest ih =>
    by_cases hp : p.1 = k
    · simp only [List.map_cons, jsLookup, List.find?_cons, if_pos hp]
      rfl
    · simp only [List.any_cons, decide_eq_false hp, Bool.false_or] at h
      simp only [List.map_cons, jsLookup, List.find?_cons, if_neg hp,
        decide_eq_false hp]
      exact ih h

/-- Lookup across an appended single binding. -/
theorem jsLookup_append_one (o : List (String × Jv)) (k k' : String) (v : Jv) :
    jsLookup k' (o ++ [(k, v)])
      = match jsLookup k' o with
        | some w => some w
        | none => if k' = k then some v else none := by
  induction o with
  | nil =>
    by_cases hk : k = k'
    · simp [jsLookup, List.find?_cons, decide_eq_true hk, hk.symm]
    · have hk' : ¬ k' = k := fun hc => hk hc.symm
      simp [jsLookup, List.find?_cons, decide_eq_false hk, if_neg hk']
  | cons p rest ih =>
    by_cases hp : p.1 = k'
    · simp [jsLookup, List.find?_cons, decide_eq_true hp]
    · simp only [List.cons_append, jsLookup, List.find?_cons,
        decide_eq_false hp] at *
      exact ih

/-- A key that no binding carries looks up to `undefined`. -/
theorem jsLookup_eq_none_of_not_any (o : List (String × Jv)) (k : String)
    (h : o.any (fun p => p.1 = k) = false) : jsLookup k o = none := by
  have hf : List.find? (fun p => decide (p.1 = k)) o = none := by
    rw [List.find?_eq_none]
    intro x hx
    simp only [List.any_eq_false] at h
    exact h x hx
  simp [jsLookup, hf]

/-- Full specification of JavaScript property assignment on lookups. -/
theorem jsLookup_assign (o : List (String × Jv)) (k k' : String) (v : Jv) :
    jsLookup k' (jsObjAssign o k v)
      = if k' = k then some v else jsLookup k' o := by
  unfold jsObjAssign
  by_cases hany : o.any (fun p => p.1 = k) = true
  · rw [if_pos hany]
    by_cases hk : k' = k
    · rw [if_pos hk, hk]
      exact jsLookup_map_self o k v hany
    · rw [if_neg hk]
      exact jsLookup_map_ne o k k' v hk
  · rw [if_neg hany, jsLookup_append_one o k k' v]
    by_cases hk : k' = k
    · subst hk
      rw [jsLookup_eq_none_of_not_any o k'
        (by simp only [Bool.not_eq_true] at hany; exact hany)]
    · cases hj : jsLookup k' o <;> simp [hj, hk]

/-- Key presence is membership among the first components. -/
theorem jsObjHas_iff (o : List (String × Jv)) (k : String) :
    jsObjHas k o = true ↔ k ∈ o.map Prod.fst := by
  simp only [jsObjHas, List.any_eq_true, List.mem_map, decide_eq_true_eq]

/-- Assignment's effect on key presence: the old keys plus the assigned
one. -/
theorem jsObjHas_assign (o : List (String × Jv)) (k k' : String) (v : Jv) :
    jsObjHas k' (jsObjAssign o k v) = (jsObjHas k' o || decide (k = k')) := by
  unfold jsObjAssign jsObjHas
  by_cases hany : o.any (fun p => p.1 = k) = true
  · rw [if_pos hany, List.any_map]
    have hfun : ((fun p => decide (p.1 = k')) ∘ fun p => if p.1 = k then (k, v) else p)
        = fun p : String × Jv => decide (p.1 = k') := by
      funext p
      by_cases hp : p.1 = k <;> simp [hp]
    rw [hfun]
    by_cases hk : k = k'
    · subst hk
      rw [hany]
      simp
    · simp [hk]
  · rw [if_neg hany, List.any_append]
    simp

/-- Spread merge at a key the update object does not carry: the facts
value is unchanged. -/
theorem jsLookup_merge_not_has (updates : List (String × Jv)) :
    ∀ (facts : List (String × Jv)) (k : String), jsObjHas k updates = false →
      jsLookup k (jsMergeFacts facts updates) = jsLookup k facts := by
  induction updates with
  | nil => intro facts k _; rfl
  | cons p rest ih =>
    intro facts k h
    simp only [jsObjHas, List.any_cons, Bool.or_eq_false_iff,
      decide_eq_false_iff_not] at h
    show jsLookup k (jsMergeFacts (jsObjAssign facts p.1 p.2) rest) = _
    rw [ih (jsObjAssign facts p.1 p.2) k h.2, jsLookup_assign,
      if_neg fun hc => h.1 hc.symm]

/-- Spread merge at a key the update object carries (keys unique, as
`JSON.parse` guarantees): the update value wins. -/
theorem jsLookup_merge_mem (updates : List (String × Jv)) :
    ∀ (facts : List (String × Jv)) (k : String) (v : Jv),
      (updates.map Prod.fst).Nodup → (k, v) ∈ updates →
      jsLookup k (jsMergeFacts facts updates) = some v := by
  induction updates with
  | nil => intro _ _ _ _ hm; cases hm
  | cons p rest ih =>
    intro facts k v hnd hm
    simp only [List.map_cons] at hnd
    have hnc := List.nodup_cons.mp hnd
    rcases List.mem_cons.mp hm with he | hr
    · cases he.symm
      show jsLookup k (jsMergeFacts (jsObjAssign facts k v) rest) = some v
      have hh : jsObjHas k rest = false := by
        have hne : ¬ jsObjHas k rest = true := fun hx => hnc.1 ((jsObjHas_iff rest k).mp hx)
        exact Bool.not_eq_true _ ▸ (Bool.eq_false_iff.mpr fun hx => hne hx)
      rw [jsLookup_merge_not_has rest (jsObjAssign facts k v) k hh,
        jsLookup_assign, if_pos rfl]
    · exact ih (jsObjAssign facts p.1 p.2) k v hnc.2 hr

/-- Spread merge never removes a key. -/
theorem jsObjHas_merge_mono (updates : List (String × Jv)) :
    ∀ (facts : List (String × Jv)) (k : String), jsObjHas k facts = true →
      jsObjHas k (jsMergeFacts facts updates) = true := by
  induction updates with
  | nil => intro _ _ h; exact h
  | cons p rest ih =>
    intro facts k h
    show jsObjHas k (jsMergeFacts (jsObjAssign facts p.1 p.2) rest) = true
    apply ih
    rw [jsObjHas_assign]
    simp [h]

/-- C6: an UPDATE payload that parses is merged into the record's facts
by `{ ...memory.facts, ...updates }`: the key carried by the payload
looks up to the payload's value (added or overwritten), a key absent
from the payload keeps its old value, and no key is removed; and the
spec's concrete examples — `UPDATE {"name": "Alex"}` on empty facts
gives exactly `{name: "Alex"}`, then `UPDATE {"name": "Sam"}` overwrites
to exactly `{name: "Sam"}` — hold through the full directive pipeline. -/
theorem c6_update_merge_semantics (facts updates : List (String × Jv))
    (k kf k2 : String) (v : Jv)
    (hnd : (updates.map Prod.fst).Nodup)
    (hmem : (k, v) ∈ updates)
    (hf : jsObjHas kf facts = true)
    (hfu : jsObjHas kf updates = false)
    (h2 : jsObjHas k2 facts = true) :
    jsLookup k (jsMergeFacts facts updates) = some v
    ∧ jsLookup kf (jsMergeFacts facts updates) = jsLookup kf facts
    ∧ jsObjHas kf (jsMergeFacts facts updates) = true
    ∧ jsObjHas k2 (jsMergeFacts facts updates) = true
    ∧ (processResponse "[UPDATE: \x7b\"name\": \"Alex\"\x7d]".toList []).facts
        = [("name", Jv.str "Alex")]
    ∧ (processResponse "[UPDATE: \x7b\"name\": \"Sam\"\x7d]".toList
          [("name", Jv.str "Alex")]).facts
        = [("name", Jv.str "Sam")] :=
  ⟨jsLookup_merge_mem updates facts k v hnd hmem,
   jsLookup_merge_not_has updates facts kf hfu,
   jsObjHas_merge_mono updates facts kf hf,
   jsObjHas_merge_mono updates facts k2 h2,
   by decide, by decide⟩

/-- Witness for C6 on a concrete record and payload. -/
theorem c6_update_merge_semantics_witness :
    jsLookup "b" (jsMergeFacts [("a", Jv.num 1), ("c", Jv.num 0)]
        [("a", Jv.num 2), ("b", Jv.num 3)]) = some (Jv.num 3)
    ∧ jsLookup "c" (jsMergeFacts [("a", Jv.num 1), ("c", Jv.num 0)]
        [("a", Jv.num 2), ("b", Jv.num 3)])
      = jsLookup "c" [("a", Jv.num 1), ("c", Jv.num 0)]
    ∧ jsObjHas "c" (jsMergeFacts [("a", Jv.num 1), ("c", Jv.num 0)]
        [("a", Jv.num 2), ("b", Jv.num 3)]) = true
    ∧ jsObjHas "a" (jsMergeFacts [("a", Jv.num 1), ("c", Jv.num 0)]
        [("a", Jv.num 2), ("b", Jv.num 3)]) = true
    ∧ (processResponse "[UPDATE: \x7b\"name\": \"Alex\"\x7d]".toList []).facts
        = [("name", Jv.str "Alex")]
    ∧ (processResponse "[UPDATE: \x7b\"name\": \"Sam\"\x7d]".toList
          [("name", Jv.str "Alex")]).facts
        = [("name", Jv.str "Sam")] :=
  c6_update_merge_semantics [("a", Jv.num 1), ("c", Jv.num 0)]
    [("a", Jv.num 2), ("b", Jv.num 3)] "b" "c" "a" (Jv.num 3)
    (by decide) (by decide) (by decide) (by decide) (by decide)

/-- A first-match scan returns the designated element when it is present,
matches, and is the only slot that matches. -/
theorem findSome?_eq_of_unique {α β : Type} (l : List α) (f : α → Option β)
    (a : α) (b : β) (ha : a ∈ l) (hfa : f a = some b)
    (huniq : ∀ x ∈ l, (f x).isSome → x = a) :
    l.findSome? f = some b := by
  induction l with
  | nil => cases ha
  | cons x xs ih =>
    rw [List.findSome?_cons]
    cases hx : f x with
    | some y =>
      have hxa : x = a := huniq x (List.mem_cons_self x xs) (by rw [hx]; rfl)
      rw [hxa, hfa] at hx
      exact hx ▸ rfl
    | none =>
      rcases List.mem_cons.mp ha with he | hm
      · rw [he, hx] at hfa
        cases hfa
      · exact ih hm fun z hz hs => huniq z (List.mem_cons_of_mem x hz) hs

/-- C8: when the store holds exactly one record matching the (cleaned,
case-folded) name `alex` — a record whose display name is `"Alex"` — the
queries `"Alex"`, `"@Alex"` and `"alex"` all find that same record; and
on a store where no slot matches, the lookup returns `null`. -/
theorem c8_find_by_username (store store2 : List (Option UserRecord))
    (r : UserRecord)
    (h1 : some r ∈ store) (h2 : r.username = some "Alex")
    (h3 : ∀ s ∈ store, (slotMatches "alex" s).isSome → s = some r)
    (h4 : ∀ s ∈ store2, slotMatches "alex" s = none) :
    findUserByUsername store "Alex" = some r
    ∧ findUserByUsername store "@Alex" = some r
    ∧ findUserByUsername store "alex" = some r
    ∧ findUserByUsername store2 "Alex" = none := by
  have hfa : slotMatches "alex" (some r) = some r := by
    obtain ⟨i, un, lang, fs, hist, li⟩ := r
    obtain rfl : un = some "Alex" := h2
    rfl
  have hmain : findUserByUsername store "Alex" = some r := by
    unfold findUserByUsername
    rw [show cleanUsername "Alex" = "alex" from by decide]
    exact findSome?_eq_of_unique store _ (some r) r h1 hfa h3
  have hat : findUserByUsername store "@Alex" = some r := by
    unfold findUserByUsername
    rw [show cleanUsername "@Alex" = "alex" from by decide]
    exact findSome?_eq_of_unique store _ (some r) r h1 hfa h3
  have hlow : findUserByUsername store "alex" = some r := by
    unfold findUserByUsername
    rw [show cleanUsername "alex" = "alex" from by decide]
    exact findSome?_eq_of_unique store _ (some r) r h1 hfa h3
  have hnone : findUserByUsername store2 "Alex" = none := by
    unfold findUserByUsername
    rw [show cleanUsername "Alex" = "alex" from by decide]
    exact List.findSome?_eq_none_iff.mpr h4
  exact ⟨hmain, hat, hlow, hnone⟩

/-- Witness for C8 on a concrete two-slot store (one unparseable slot,
one record named `Alex`) and an empty second store. -/
theorem c8_find_by_username_witness :
    findUserByUsername [none, some (UserRecord.mk 1 (some "Alex") "ru" [] [] 0)] "Alex"
      = some (UserRecord.mk 1 (some "Alex") "ru" [] [] 0)
    ∧ findUserByUsername [none, some (UserRecord.mk 1 (some "Alex") "ru" [] [] 0)] "@Alex"
      = some (UserRecord.mk 1 (some "Alex") "ru" [] [] 0)
    ∧ findUserByUsername [none, some (UserRecord.mk 1 (some "Alex") "ru" [] [] 0)] "alex"
      = some (UserRecord.mk 1 (some "Alex") "ru" [] [] 0)
    ∧ findUserByUsername [none] "Alex" = none :=
  c8_find_by_username [none, some (UserRecord.mk 1 (some "Alex") "ru" [] [] 0)]
    [none] (UserRecord.mk 1 (some "Alex") "ru" [] [] 0)
    (by decide) (by decide) (by decide) (by decide)

/-- C10: the prompt context for a cross-user query exposes only the
target record's username and facts, never its history: two target
records agreeing on username and facts — with arbitrarily different
histories — produce the identical system prompt and the identical
message list sent to the generation API. -/
theorem c10_target_history_never_in_prompt (userMsg : String)
    (memory t1 t2 : UserRecord)
    (hu : t1.username = t2.username) (hf : t1.facts = t2.facts) :
    generateSystemPrompt memory (some t1) = generateSystemPrompt memory (some t2)
    ∧ generateMessages userMsg memory (some t1)
        = generateMessages userMsg memory (some t2) := by
  obtain ⟨i1, u1, l1, f1, hh1, li1⟩ := t1
  obtain ⟨i2, u2, l2, f2, hh2, li2⟩ := t2
  obtain rfl : u1 = u2 := hu
  obtain rfl : f1 = f2 := hf
  exact ⟨rfl, rfl⟩

/-- Witness for C10: two targets with the same username and facts but
different histories (one of them containing a private exchange). -/
theorem c10_target_history_never_in_prompt_witness :
    generateSystemPrompt (defaultUserMemory 0 0)
        (some (UserRecord.mk 1 (some "alex") "ru" [("hobby", Jv.str "chess")]
          [HistoryEntry.mk "user" "a secret" 5] 0))
      = generateSystemPrompt (defaultUserMemory 0 0)
        (some (UserRecord.mk 1 (some "alex") "ru" [("hobby", Jv.str "chess")] [] 0))
    ∧ generateMessages "who is @alex" (defaultUserMemory 0 0)
        (some (UserRecord.mk 1 (some "alex") "ru" [("hobby", Jv.str "chess")]
          [HistoryEntry.mk "user" "a secret" 5] 0))
      = generateMessages "who is @alex" (defaultUserMemory 0 0)
        (some (UserRecord.mk 1 (some "alex") "ru" [("hobby", Jv.str "chess")] [] 0)) :=
  c10_target_history_never_in_prompt "who is @alex" (defaultUserMemory 0 0)
    (UserRecord.mk 1 (some "alex") "ru" [("hobby", Jv.str "chess")]
      [HistoryEntry.mk "user" "a secret" 5] 0)
    (UserRecord.mk 1 (some "alex") "ru" [("hobby", Jv.str "chess")] [] 0)
    rfl rfl
